import Mathlib

/-!
Verification of the HibiscusIM websocket hub (`pkg/websocket`) against its
natural-language specification.

The Go source is shallowly embedded: Go maps become association lists with
overwrite-insert semantics, `map[string]bool` sets become duplicate-free
lists, channels become bounded lists whose capacity is the channel buffer
size, `time.Time`/`time.Duration` become `Int` (nanoseconds), and the
`*websocket.Conn` transport is abstracted to an open/closed flag.  Each
operation of the hub (`registerConnection`, `unregisterConnection`,
`trySend`, `checkHeartbeats`, the dispatch branch of `run`, and the
per-connection message handlers) is translated as a pure state
transformer.
-/

namespace HibiscusWS

/-! ## Finite maps as association lists (Go `map` semantics) -/

variable {κ : Type} {α : Type}

/-- Lookup in an association list: the Go map read `m[k]`. -/
def mapGet [DecidableEq κ] : List (κ × α) → κ → Option α
  | [], _ => none
  | p :: rest, k => if p.1 = k then some p.2 else mapGet rest k

/-- Remove every binding of key `k`: the Go map `delete(m, k)`. -/
def mapErase [DecidableEq κ] : List (κ × α) → κ → List (κ × α)
  | [], _ => []
  | p :: rest, k => if p.1 = k then mapErase rest k else p :: mapErase rest k

/-- Overwrite-insert: the Go map write `m[k] = v`. -/
def mapInsert [DecidableEq κ] (m : List (κ × α)) (k : κ) (v : α) : List (κ × α) :=
  (k, v) :: mapErase m k

/-- `m[k]` with the zero value as default (Go read of a missing key). -/
def mapGetD [DecidableEq κ] (m : List (κ × α)) (k : κ) (d : α) : α :=
  (mapGet m k).getD d

/-- Membership test of a `map[string]bool` style set. -/
def setAdd [DecidableEq α] (x : α) (s : List α) : List α :=
  if x ∈ s then s else x :: s

/-- Removal from a `map[string]bool` style set (`delete(s, x)`). -/
def setDel [DecidableEq α] (x : α) : List α → List α
  | [] => []
  | y :: rest => if y = x then setDel x rest else y :: setDel x rest

section MapLemmas

variable [DecidableEq κ]

theorem mapGet_erase_self (m : List (κ × α)) (k : κ) :
    mapGet (mapErase m k) k = none := by
  induction m with
  | nil => rfl
  | cons p rest ih =>
    by_cases h : p.1 = k <;> simp [mapErase, h, mapGet, ih]

theorem mapGet_erase_ne (m : List (κ × α)) (k k' : κ) (h : k' ≠ k) :
    mapGet (mapErase m k) k' = mapGet m k' := by
  induction m with
  | nil => rfl
  | cons p rest ih =>
    have hkk : ¬ k = k' := fun he => h he.symm
    by_cases hp : p.1 = k
    · have hk : ¬ p.1 = k' := by rw [hp]; exact hkk
      simp [mapErase, hp, mapGet, hk, ih, hkk]
    · by_cases hp' : p.1 = k' <;> simp [mapErase, hp, mapGet, hp', ih, h, hkk]

theorem mapGet_insert_self (m : List (κ × α)) (k : κ) (v : α) :
    mapGet (mapInsert m k v) k = some v := by
  simp [mapInsert, mapGet]

theorem mapGet_insert_ne (m : List (κ × α)) (k k' : κ) (v : α) (h : k' ≠ k) :
    mapGet (mapInsert m k v) k' = mapGet m k' := by
  have : ¬ k = k' := fun he => h he.symm
  simp [mapInsert, mapGet, this, mapGet_erase_ne m k k' h]

theorem mapGet_some_mem (m : List (κ × α)) (k : κ) (v : α)
    (h : mapGet m k = some v) : (k, v) ∈ m := by
  induction m with
  | nil => exact absurd h (by simp [mapGet])
  | cons p rest ih =>
    by_cases hp : p.1 = k
    · have h2 : some p.2 = some v := by simpa [mapGet, hp] using h
      have hpv : p = (k, v) := by
        cases p
        simp_all
      rw [hpv]
      exact List.mem_cons_self _ _
    · simp only [mapGet, hp, if_neg, not_false_iff] at h
      exact List.mem_cons_of_mem _ (ih h)

theorem mem_mapGet_of_keysNodup (m : List (κ × α)) (k : κ) (v : α)
    (hmem : (k, v) ∈ m) (hnd : (m.map Prod.fst).Nodup) :
    mapGet m k = some v := by
  induction m with
  | nil => cases hmem
  | cons p rest ih =>
    simp only [List.map_cons, List.nodup_cons] at hnd
    rcases List.mem_cons.mp hmem with h | h
    · subst h
      simp [mapGet]
    · have hk : ¬ p.1 = k := by
        intro he
        exact hnd.1 (he ▸ (List.mem_map.mpr ⟨(k, v), h, rfl⟩))
      simp only [mapGet, hk, if_neg, not_false_iff]
      exact ih h hnd.2

theorem mapGet_mapValues (f : α → α) (m : List (κ × α)) (k : κ) :
    mapGet (m.map (fun p => (p.1, f p.2))) k = (mapGet m k).map f := by
  induction m with
  | nil => rfl
  | cons p rest ih =>
    by_cases hp : p.1 = k <;> simp [mapGet, hp, ih]

end MapLemmas

section SetLemmas

variable [DecidableEq α]

theorem not_mem_setDel_self (x : α) (s : List α) : x ∉ setDel x s := by
  induction s with
  | nil => simp [setDel]
  | cons y rest ih =>
    by_cases h : y = x
    · simpa [setDel, h] using ih
    · simp [setDel, h, ih]
      exact fun he => h he.symm

theorem mem_setDel_ne (x y : α) (s : List α) (h : y ≠ x) :
    y ∈ setDel x s ↔ y ∈ s := by
  induction s with
  | nil => simp [setDel]
  | cons z rest ih =>
    by_cases hz : z = x
    · subst hz
      simp [setDel, ih]
      exact fun he => absurd he h
    · simp [setDel, hz, ih]

theorem mem_setAdd_self (x : α) (s : List α) : x ∈ setAdd x s := by
  by_cases h : x ∈ s <;> simp [setAdd, h]

theorem mem_setAdd (x y : α) (s : List α) :
    y ∈ setAdd x s ↔ y = x ∨ y ∈ s := by
  by_cases h : x ∈ s
  · simp only [setAdd, h, if_pos]
    constructor
    · exact Or.inr
    · rintro (rfl | hy)
      · exact h
      · exact hy
  · simp [setAdd, h]

theorem nodup_setAdd (x : α) (s : List α) (h : s.Nodup) : (setAdd x s).Nodup := by
  by_cases hx : x ∈ s <;> simp [setAdd, hx, h]

theorem nodup_setDel (x : α) (s : List α) (h : s.Nodup) : (setDel x s).Nodup := by
  induction s with
  | nil => simp [setDel]
  | cons y rest ih =>
    rcases List.nodup_cons.mp h with ⟨hy, hrest⟩
    by_cases hz : y = x
    · simp [setDel, hz, ih hrest]
    · simp only [setDel, hz, if_neg, not_false_iff]
      refine List.nodup_cons.mpr ⟨fun hmem => ?_, ih hrest⟩
      exact hy ((mem_setDel_ne x y rest hz).mp hmem)

end SetLemmas

/-! ## JSON values and the wire `Message` (websocket.go lines 15-23)

`data` is `interface{}` holding a decoded JSON value, modelled by `Payload`.
Serialized `[]byte` frames are modelled at the level of the JSON value they
encode. -/

/-- A decoded JSON value (the domain of Go `interface{}` after `json.Unmarshal`). -/
inductive Payload where
  | null : Payload
  | str : String → Payload
  | num : Int → Payload
  | bool : Bool → Payload
  | arr : List Payload → Payload
  | obj : List (String × Payload) → Payload

/-- `Payload.isObj` is the Go type assertion `.(map[string]interface{})`. -/
def Payload.isObj : Payload → Bool
  | .obj _ => true
  | _ => false

/-- `Payload.objFields` extracts the fields of a JSON object (empty otherwise). -/
def Payload.objFields : Payload → List (String × Payload)
  | .obj fs => fs
  | _ => []

/-- The `Message` struct.  Field `Type` is rendered `type` because `Type` is a
Lean keyword; `From` keeps its Go name (`from` is a Lean keyword). -/
structure Message where
  type : String
  data : Payload
  timestamp : Int
  From : String
  To : String
  Group : String

/-- `json.Marshal` of a `Message`: fields in struct order, `from`/`to`/`group`
carry `omitempty` so an empty string is omitted from the wire object. -/
def marshalMessage (m : Message) : Payload :=
  .obj ([("type", .str m.type), ("data", m.data), ("timestamp", .num m.timestamp)]
    ++ (if m.From = "" then [] else [("from", .str m.From)])
    ++ (if m.To = "" then [] else [("to", .str m.To)])
    ++ (if m.Group = "" then [] else [("group", .str m.Group)]))

/-- Reading a `string`-typed struct field during `json.Unmarshal`: a missing
key yields the zero value `""`, a key bound to a non-string is a type error. -/
def getStringField (fs : List (String × Payload)) (k : String) : Option String :=
  match mapGet fs k with
  | none => some ""
  | some (.str s) => some s
  | some _ => none

/-- Reading an `int64`-typed struct field during `json.Unmarshal`. -/
def getIntField (fs : List (String × Payload)) (k : String) : Option Int :=
  match mapGet fs k with
  | none => some 0
  | some (.num n) => some n
  | some _ => none

/-- `json.Unmarshal` of a frame into a `Message` (non-objects and wrongly
typed fields are decode errors). -/
def unmarshalMessage (j : Payload) : Option Message :=
  match j with
  | .obj fs => do
      let t ← getStringField fs "type"
      let ts ← getIntField fs "timestamp"
      let f ← getStringField fs "from"
      let tto ← getStringField fs "to"
      let g ← getStringField fs "group"
      some { type := t, data := (mapGet fs "data").getD .null, timestamp := ts,
             From := f, To := tto, Group := g }
  | _ => none

/-! ## Config (websocket.go lines 85-153, connection.go `ValidateConfig`) -/

/-- The `Config` struct.  Durations are `Int` nanoseconds, like `time.Duration`. -/
structure Config where
  MaxConnections : Int
  HeartbeatInterval : Int
  ConnectionTimeout : Int
  MessageBufferSize : Int
  ReadBufferSize : Int
  WriteBufferSize : Int
  MaxMessageSize : Int
  EnableCompression : Bool
  EnableMessageQueue : Bool
  MessageQueueSize : Int
  EnableCluster : Bool
  ClusterNodeID : String
  ShardCount : Int
  BroadcastWorkerCount : Int
  DropOnFull : Bool
  CompressionLevel : Int
  CloseOnBackpressure : Bool
  SendTimeout : Int
  EnableGlobalPing : Bool
  PingWorkerCount : Int
  deriving DecidableEq

/-- One second of `time.Duration`, in nanoseconds. -/
def second : Int := 1000000000

/-- One millisecond of `time.Duration`, in nanoseconds. -/
def millisecond : Int := 1000000

/-- `DefaultConfig` (websocket.go lines 130-153). -/
def DefaultConfig : Config :=
  { MaxConnections := 100000
    HeartbeatInterval := 30 * second
    ConnectionTimeout := 60 * second
    MessageBufferSize := 256
    ReadBufferSize := 1024
    WriteBufferSize := 1024
    MaxMessageSize := 512
    EnableCompression := true
    EnableMessageQueue := true
    MessageQueueSize := 1000
    EnableCluster := false
    ClusterNodeID := ""
    ShardCount := 16
    BroadcastWorkerCount := 32
    DropOnFull := true
    CompressionLevel := -2
    CloseOnBackpressure := false
    SendTimeout := 50 * millisecond
    EnableGlobalPing := false
    PingWorkerCount := 8 }

/-- `ValidateConfig` (connection.go lines 503-562): the sequential checks, in
source order.  The `nil` guard is the `Option` wrapper in `ValidateConfig'`. -/
def ValidateConfig (config : Config) : Except String Unit :=
  if config.MaxConnections ≤ 0 then .error "max connections must be positive"
  else if config.HeartbeatInterval ≤ 0 then .error "heartbeat interval must be positive"
  else if config.ConnectionTimeout ≤ 0 then .error "connection timeout must be positive"
  else if config.MessageBufferSize ≤ 0 then .error "message buffer size must be positive"
  else if config.MessageQueueSize ≤ 0 then .error "message queue size must be positive"
  else if config.ShardCount ≤ 0 then .error "shard count must be positive"
  else if config.BroadcastWorkerCount ≤ 0 then .error "broadcast worker count must be positive"
  else if config.CompressionLevel < -2 ∨ 9 < config.CompressionLevel then .error "compression level out of range"
  else if config.ReadBufferSize ≤ 0 ∨ config.WriteBufferSize ≤ 0 then .error "read or write buffer size must be positive"
  else if config.MaxMessageSize ≤ 0 then .error "max message size must be positive"
  else if config.ConnectionTimeout ≤ config.HeartbeatInterval then .error "heartbeat interval must be below connection timeout"
  else if config.CloseOnBackpressure ∧ config.SendTimeout ≤ 0 then .error "close on backpressure requires a send timeout"
  else if config.EnableGlobalPing ∧ config.PingWorkerCount ≤ 0 then .error "global ping requires ping workers"
  else .ok ()

/-! ## Connections and hub state (websocket.go lines 25-73) -/

/-- The per-connection state.  `transportOpen` models the `*websocket.Conn`
(`false` after `Conn.Close()`); `Send` models the contents of the buffered
outbound channel, holding serialized messages as the JSON values they encode. -/
structure Connection where
  ID : String
  UserID : String
  transportOpen : Bool
  Send : List Payload
  LastPing : Int
  IsAlive : Bool
  Groups : List String
  Metadata : List (String × Payload)

/-- The mutable state of a `Hub`: the three registry maps, the shard table,
the connection counter, the `broadcast` dispatch channel and the
`broadcastJobs` fanout channel.  A shard with no entry in `shardConns` is the
empty shard map. -/
structure HubState where
  connections : List (String × Connection)
  userConnections : List (String × List String)
  groupConnections : List (String × List String)
  broadcast : List Message
  connectionCount : Int
  shardCount : Nat
  shardConns : List (Nat × List String)
  broadcastJobs : List (Nat × Payload)

/-- 32-bit FNV-1a over the UTF-8 bytes of a string (`hash/fnv`, `Sum32`). -/
def utf8Bytes (c : Char) : List Nat :=
  let n := c.toNat
  if n < 0x80 then [n]
  else if n < 0x800 then [0xC0 + n / 0x40, 0x80 + n % 0x40]
  else if n < 0x10000 then [0xE0 + n / 0x1000, 0x80 + (n / 0x40) % 0x40, 0x80 + n % 0x40]
  else [0xF0 + n / 0x40000, 0x80 + (n / 0x1000) % 0x40, 0x80 + (n / 0x40) % 0x40, 0x80 + n % 0x40]

/-- FNV-1a 32-bit hash, with arithmetic carried out modulo `2^32`. -/
def fnv32a (s : String) : Nat :=
  s.data.foldl
    (fun h c => (utf8Bytes c).foldl (fun h b => ((h ^^^ b) * 16777619) % 4294967296) h)
    2166136261

/-- `Hub.shardIndex` (websocket.go lines 470-477). -/
def shardIndex (shardCount : Nat) (id : String) : Nat :=
  if shardCount ≤ 1 then 0 else fnv32a id % shardCount

/-- The config normalisation `NewHub` performs in place (websocket.go
lines 176-199): non-positive shard / worker counts are bumped to 1. -/
def normalizeConfig (c : Config) : Config :=
  let c1 := if c.ShardCount ≤ 0 then { c with ShardCount := 1 } else c
  let c2 := if c1.BroadcastWorkerCount ≤ 0 then { c1 with BroadcastWorkerCount := 1 } else c1
  if c2.EnableGlobalPing ∧ c2.PingWorkerCount ≤ 0 then { c2 with PingWorkerCount := 1 } else c2

/-- `NewHub` (websocket.go lines 156-208): a `nil` config is replaced by the
default, the config is normalised, the empty state is built and the run loop
is started.  Note that `NewHub` performs no call to `ValidateConfig`. -/
def NewHub (config? : Option Config) : Config × HubState :=
  let config := normalizeConfig (config?.getD DefaultConfig)
  (config,
    { connections := []
      userConnections := []
      groupConnections := []
      broadcast := []
      connectionCount := 0
      shardCount := config.ShardCount.toNat
      shardConns := []
      broadcastJobs := [] })

/-! ## Backpressure policy: `Hub.trySend` (websocket.go lines 506-532)

The outbound channel is a bounded list of capacity `MessageBufferSize`.
In drop-on-full mode the enqueue attempt is non-blocking; in bounded-wait
mode the attempt waits up to `SendTimeout` (50ms default when non-positive)
for space.  Time is not part of the state, so with no concurrent consumer a
full queue stays full for the whole wait and both modes map to the same
state transformation; only the (unmodelled) wall-clock bound differs. -/

/-- Result of `trySend`: the updated connection and whether the drop
callback (`onDrop`) was invoked. -/
structure SendResult where
  conn : Connection
  dropped : Bool

/-- `Hub.trySend` (websocket.go lines 506-532). -/
def trySend (config : Config) (conn : Connection) (data : Payload) : SendResult :=
  if config.DropOnFull then
    if (conn.Send.length : Int) < config.MessageBufferSize then
      ⟨{ conn with Send := conn.Send ++ [data] }, false⟩
    else
      ⟨if config.CloseOnBackpressure then { conn with transportOpen := false } else conn, true⟩
  else
    if (conn.Send.length : Int) < config.MessageBufferSize then
      ⟨{ conn with Send := conn.Send ++ [data] }, false⟩
    else
      ⟨if config.CloseOnBackpressure then { conn with transportOpen := false } else conn, true⟩

/-! ## Registration (websocket.go lines 269-347) -/

/-- `Hub.registerConnection` (websocket.go lines 270-308).  The returned
connection records the side effect on the caller's object (the transport is
closed when the capacity check fails). -/
def registerConnection (config : Config) (s : HubState) (conn : Connection) :
    HubState × Connection :=
  if config.MaxConnections ≤ s.connectionCount then
    (s, { conn with transportOpen := false })
  else
    let s1 := { s with connections := mapInsert s.connections conn.ID conn,
                       connectionCount := s.connectionCount + 1 }
    let sh := shardIndex s.shardCount conn.ID
    let shardConns2 := mapInsert s1.shardConns sh (setAdd conn.ID (mapGetD s1.shardConns sh []))
    let s2 := { s1 with shardConns := shardConns2 }
    let s3 :=
      if conn.UserID = "" then s2
      else { s2 with userConnections := mapInsert s2.userConnections conn.UserID (setAdd conn.ID (mapGetD s2.userConnections conn.UserID [])) }
    let s4 := conn.Groups.foldl
      (fun st g => { st with groupConnections := mapInsert st.groupConnections g (setAdd conn.ID (mapGetD st.groupConnections g [])) }) s3
    (s4, conn)

/-- Removal of `cid` from one group's member set, deleting the group entry
when it becomes empty (the pattern at websocket.go lines 334-341 and
connection.go lines 259-266). -/
def removeFromGroupIndex (cid : String) (m : List (String × List String)) (g : String) :
    List (String × List String) :=
  match mapGet m g with
  | none => m
  | some ids =>
      let rest := setDel cid ids
      if rest.isEmpty then mapErase m g else mapInsert m g rest

/-- `Hub.unregisterConnection` (websocket.go lines 311-347).  The `Bool`
records whether the outbound queue was closed by this call. -/
def unregisterConnection (s : HubState) (conn : Connection) : HubState × Bool :=
  match mapGet s.connections conn.ID with
  | none => (s, false)
  | some _ =>
      let s1 := { s with connections := mapErase s.connections conn.ID,
                         connectionCount := s.connectionCount - 1 }
      let sh := shardIndex s.shardCount conn.ID
      let shardConns2 := mapInsert s1.shardConns sh (setDel conn.ID (mapGetD s1.shardConns sh []))
      let s2 := { s1 with shardConns := shardConns2 }
      let s3 :=
        if conn.UserID = "" then s2
        else match mapGet s2.userConnections conn.UserID with
          | none => s2
          | some ids =>
              let rest := setDel conn.ID ids
              if rest.isEmpty then
                { s2 with userConnections := mapErase s2.userConnections conn.UserID }
              else
                { s2 with userConnections := mapInsert s2.userConnections conn.UserID rest }
      let s4 := conn.Groups.foldl
        (fun st g => { st with groupConnections := removeFromGroupIndex conn.ID st.groupConnections g }) s3
      (s4, true)

/-- `Hub.checkHeartbeats` (websocket.go lines 414-426): every registered
connection whose last heartbeat is strictly older than `ConnectionTimeout`
is marked not alive and its transport closed. -/
def checkHeartbeats (config : Config) (now : Int) (s : HubState) : HubState :=
  { s with connections := s.connections.map (fun p =>
      (p.1, if config.ConnectionTimeout < now - p.2.LastPing
            then { p.2 with IsAlive := false, transportOpen := false }
            else p.2)) }

/-! ## Message dispatch (websocket.go lines 223-240, 380-411, 479-488) -/

/-- One delivery attempt of `sendToUser`/`sendToGroup` loop bodies: look the
id up in the registry and, if present and alive, apply the backpressure
policy to that connection. -/
def deliverTo (config : Config) (s : HubState) (cid : String) (data : Payload) : HubState :=
  match mapGet s.connections cid with
  | none => s
  | some conn =>
      if conn.IsAlive then
        { s with connections := mapInsert s.connections cid (trySend config conn data).conn }
      else s

/-- `Hub.sendToUser` (websocket.go lines 381-389). -/
def sendToUser (config : Config) (s : HubState) (userID : String) (data : Payload) : HubState :=
  match mapGet s.userConnections userID with
  | none => s
  | some ids => ids.foldl (fun st cid => deliverTo config st cid data) s

/-- `Hub.sendToGroup` (websocket.go lines 392-400). -/
def sendToGroup (config : Config) (s : HubState) (group : String) (data : Payload) : HubState :=
  match mapGet s.groupConnections group with
  | none => s
  | some ids => ids.foldl (fun st cid => deliverTo config st cid data) s

/-- `Hub.enqueueBroadcastAll` (websocket.go lines 480-488): one fanout job
per shard, dropped individually when the bounded job queue is full. -/
def enqueueBroadcastAll (config : Config) (s : HubState) (data : Payload) : HubState :=
  let jobs2 := (List.range s.shardCount).foldl
    (fun jobs i =>
      if (jobs.length : Int) < config.MessageQueueSize then jobs ++ [(i, data)] else jobs)
    s.broadcastJobs
  { s with broadcastJobs := jobs2 }

/-- Fill in a zero timestamp (websocket.go lines 225-227). -/
def stampTimestamp (now : Int) (m : Message) : Message :=
  if m.timestamp = 0 then { m with timestamp := now } else m

/-- The `message := <-h.broadcast` branch of `Hub.run` (websocket.go lines
223-240): stamp, serialize once, then route on `To`, `Group`, or broadcast. -/
def dispatchMessage (config : Config) (now : Int) (s : HubState) (m : Message) : HubState :=
  let msg := stampTimestamp now m
  let data := marshalMessage msg
  if msg.To ≠ "" then sendToUser config s msg.To data
  else if msg.Group ≠ "" then sendToGroup config s msg.Group data
  else enqueueBroadcastAll config s data

/-! ## Per-connection inbound handlers (connection.go lines 160-338)

A handler mutates the connection object and the hub.  When the connection
is registered, the registry entry is the same Go object, so every mutation
of the connection is mirrored into `connections` (`syncConn`). -/

/-- The `select`/`default` response enqueue used by the handlers: enqueue
when the buffered channel has room, otherwise drop the response. -/
def enqueueLocal (config : Config) (conn : Connection) (data : Payload) : Connection :=
  if (conn.Send.length : Int) < config.MessageBufferSize then
    { conn with Send := conn.Send ++ [data] }
  else conn

/-- Mirror a mutation of a registered connection object into the registry
map (pointer aliasing of `h.connections[c.ID]` and `c`). -/
def syncConn (s : HubState) (conn : Connection) : HubState :=
  match mapGet s.connections conn.ID with
  | none => s
  | some _ => { s with connections := mapInsert s.connections conn.ID conn }

/-- `Connection.handlePing` (connection.go lines 190-207). -/
def handlePing (config : Config) (now : Int) (conn : Connection) (s : HubState) :
    Connection × HubState :=
  let c1 := { conn with LastPing := now }
  let resp : Message :=
    { type := "pong", data := .null, timestamp := now, From := "", To := "", Group := "" }
  let c2 := enqueueLocal config c1 (marshalMessage resp)
  (c2, syncConn s c2)

/-- `Connection.handleJoinGroup` (connection.go lines 210-244). -/
def handleJoinGroup (config : Config) (now : Int) (conn : Connection) (s : HubState)
    (msg : Message) : Connection × HubState :=
  match msg.data with
  | .str groupName =>
      let c1 := { conn with Groups := setAdd groupName conn.Groups }
      let s1 := { s with groupConnections := mapInsert s.groupConnections groupName (setAdd conn.ID (mapGetD s.groupConnections groupName [])) }
      let resp : Message :=
        { type := "group_joined", data := .str groupName, timestamp := now,
          From := "", To := "", Group := "" }
      let c2 := enqueueLocal config c1 (marshalMessage resp)
      (c2, syncConn s1 c2)
  | _ => (conn, s)

/-- `Connection.handleLeaveGroup` (connection.go lines 247-283). -/
def handleLeaveGroup (config : Config) (now : Int) (conn : Connection) (s : HubState)
    (msg : Message) : Connection × HubState :=
  match msg.data with
  | .str groupName =>
      let c1 := { conn with Groups := setDel groupName conn.Groups }
      let s1 := { s with groupConnections := removeFromGroupIndex conn.ID s.groupConnections groupName }
      let resp : Message :=
        { type := "group_left", data := .str groupName, timestamp := now,
          From := "", To := "", Group := "" }
      let c2 := enqueueLocal config c1 (marshalMessage resp)
      (c2, syncConn s1 c2)
  | _ => (conn, s)

/-- `Connection.handleChat` (connection.go lines 286-301): requires `data`
to be a JSON object and a target (`To` or `Group`); otherwise the frame is
discarded.  Accepted messages go to the hub's `broadcast` dispatch queue. -/
def handleChat (conn : Connection) (s : HubState) (msg : Message) :
    Connection × HubState :=
  if msg.data.isObj then
    if msg.To = "" ∧ msg.Group = "" then (conn, s)
    else (conn, { s with broadcast := s.broadcast ++ [msg] })
  else (conn, s)

/-- `Connection.handleNotification` (connection.go lines 304-313). -/
def handleNotification (conn : Connection) (s : HubState) (msg : Message) :
    Connection × HubState :=
  if msg.data.isObj then (conn, { s with broadcast := s.broadcast ++ [msg] })
  else (conn, s)

/-- `Connection.handleStatus` (connection.go lines 316-338). -/
def handleStatus (config : Config) (now : Int) (conn : Connection) (s : HubState)
    (msg : Message) : Connection × HubState :=
  let c1 :=
    match msg.data with
    | .obj fields =>
        { conn with Metadata := fields.foldl (fun md p => mapInsert md p.1 p.2) conn.Metadata }
    | _ => conn
  let resp : Message :=
    { type := "status_updated", data := .null, timestamp := now, From := "", To := "", Group := "" }
  let c2 := enqueueLocal config c1 (marshalMessage resp)
  (c2, syncConn s c2)

/-- The dispatch switch of `Connection.handleMessage` (connection.go lines
167-187), applied to an already-parsed message: the sender id is overwritten
with the connection's own user id before any handling. -/
def handleParsedMessage (config : Config) (now : Int) (conn : Connection) (s : HubState)
    (m : Message) : Connection × HubState :=
  let msg := { m with From := conn.UserID }
  match msg.type with
  | "ping" => handlePing config now conn s
  | "join_group" => handleJoinGroup config now conn s msg
  | "leave_group" => handleLeaveGroup config now conn s msg
  | "chat" => handleChat conn s msg
  | "notification" => handleNotification conn s msg
  | "status" => handleStatus config now conn s msg
  | _ => (conn, s)

/-- `Connection.handleMessage` (connection.go lines 160-187): parse the
frame (a parse failure discards it) and dispatch. -/
def handleMessage (config : Config) (now : Int) (conn : Connection) (s : HubState)
    (frame : Payload) : Connection × HubState :=
  match unmarshalMessage frame with
  | none => (conn, s)
  | some m => handleParsedMessage config now conn s m

/-! ## Reachability and well-formedness -/

/-- One processing step of the hub's control loop: a register or unregister
event, an inbound frame handled by some connection, a dispatched message, or
a heartbeat tick scan. -/
inductive Step (config : Config) : HubState → HubState → Prop where
  | register (s : HubState) (conn : Connection) :
      Step config s (registerConnection config s conn).1
  | unregister (s : HubState) (conn : Connection) :
      Step config s (unregisterConnection s conn).1
  | message (s : HubState) (conn : Connection) (now : Int) (frame : Payload) :
      Step config s (handleMessage config now conn s frame).2
  | dispatch (s : HubState) (now : Int) (m : Message) :
      Step config s (dispatchMessage config now s m)
  | heartbeat (s : HubState) (now : Int) :
      Step config s (checkHeartbeats config now s)

/-- States reachable from the freshly constructed hub. -/
inductive Reachable (config : Config) : HubState → Prop where
  | init : Reachable config (NewHub (some config)).2
  | step {s s' : HubState} : Reachable config s → Step config s s' → Reachable config s'

/-- Well-formedness of the registry indices (the data-model invariants of
the spec): keys are unique, member sets are duplicate-free, the user index
holds exactly the registered connections owned by that (non-empty) user, and
the group index holds exactly the registered connections whose group set
contains that group. -/
def WF (s : HubState) : Prop :=
  (s.connections.map Prod.fst).Nodup ∧
  (s.userConnections.map Prod.fst).Nodup ∧
  (s.groupConnections.map Prod.fst).Nodup ∧
  (∀ p ∈ s.userConnections, p.1 ≠ "" ∧ p.2.Nodup ∧
      ∀ cid ∈ p.2, (mapGet s.connections cid).map Connection.UserID = some p.1) ∧
  (∀ q ∈ s.connections, q.2.UserID ≠ "" → q.1 ∈ mapGetD s.userConnections q.2.UserID []) ∧
  (∀ p ∈ s.groupConnections, p.2.Nodup ∧
      ∀ cid ∈ p.2, p.1 ∈ ((mapGet s.connections cid).map Connection.Groups).getD []) ∧
  (∀ q ∈ s.connections, ∀ g ∈ q.2.Groups, q.1 ∈ mapGetD s.groupConnections g [])

instance (s : HubState) : Decidable (WF s) := by
  unfold WF
  infer_instance

/-! ## Concrete instances used by witnesses and counterexamples -/

/-- An invalid configuration: heartbeat interval (60s) is not below the
connection timeout (30s). -/
def c4bad : Config :=
  { DefaultConfig with HeartbeatInterval := 60 * second, ConnectionTimeout := 30 * second }

/-- A connection used by concrete witnesses. -/
def wConnA : Connection :=
  { ID := "a", UserID := "u1", transportOpen := true, Send := [], LastPing := 0,
    IsAlive := true, Groups := ["g"], Metadata := [] }

/-- A second connection used by concrete witnesses. -/
def wConnB : Connection :=
  { ID := "b", UserID := "u2", transportOpen := true, Send := [], LastPing := 100,
    IsAlive := true, Groups := [], Metadata := [] }

/-- A tiny configuration with a one-slot outbound queue. -/
def wTinyConfig : Config := { DefaultConfig with MessageBufferSize := 1 }

/-- A connection whose one-slot outbound queue is full. -/
def wFullConn : Connection :=
  { ID := "f", UserID := "u9", transportOpen := true, Send := [.null], LastPing := 0,
    IsAlive := true, Groups := [], Metadata := [] }

/-- A two-connection hub state satisfying `WF`. -/
def wHub : HubState :=
  { connections := [("a", wConnA), ("b", wConnB)]
    userConnections := [("u1", ["a"]), ("u2", ["b"])]
    groupConnections := [("g", ["a"])]
    broadcast := []
    connectionCount := 2
    shardCount := 4
    shardConns := [(shardIndex 4 "a", ["a"]), (shardIndex 4 "b", ["b"])]
    broadcastJobs := [] }

/-- A hub state at the default connection limit. -/
def wFullHub : HubState :=
  { connections := [], userConnections := [], groupConnections := [], broadcast := [],
    connectionCount := 100000, shardCount := 16, shardConns := [], broadcastJobs := [] }

/-- A test chat message with every optional field populated. -/
def wMsgFull : Message :=
  { type := "chat", data := .obj [("text", .str "hi")], timestamp := 5,
    From := "u1", To := "u2", Group := "g" }

/-- A chat message whose `data` is not a JSON object. -/
def wMsgBadData : Message :=
  { type := "chat", data := .str "hi", timestamp := 5, From := "u1", To := "u2", Group := "" }

/-- A `join_group` message for group `"g2"`. -/
def wMsgJoin : Message :=
  { type := "join_group", data := .str "g2", timestamp := 0, From := "u1", To := "", Group := "" }

/-- A `leave_group` message for group `"g2"`. -/
def wMsgLeave : Message :=
  { type := "leave_group", data := .str "g2", timestamp := 0, From := "u1", To := "", Group := "" }

/-! ## Field-preservation lemmas -/

theorem syncConn_fields (s : HubState) (c : Connection) :
    (syncConn s c).userConnections = s.userConnections ∧
    (syncConn s c).groupConnections = s.groupConnections ∧
    (syncConn s c).broadcast = s.broadcast ∧
    (syncConn s c).connectionCount = s.connectionCount ∧
    (syncConn s c).shardCount = s.shardCount ∧
    (syncConn s c).shardConns = s.shardConns ∧
    (syncConn s c).broadcastJobs = s.broadcastJobs := by
  unfold syncConn
  split <;> exact ⟨rfl, rfl, rfl, rfl, rfl, rfl, rfl⟩

theorem syncConn_broadcast (s : HubState) (c : Connection) :
    (syncConn s c).broadcast = s.broadcast :=
  (syncConn_fields s c).2.2.1

theorem syncConn_groupConnections (s : HubState) (c : Connection) :
    (syncConn s c).groupConnections = s.groupConnections :=
  (syncConn_fields s c).2.1

theorem syncConn_connectionCount (s : HubState) (c : Connection) :
    (syncConn s c).connectionCount = s.connectionCount :=
  (syncConn_fields s c).2.2.2.1

theorem handlePing_broadcast (config : Config) (now : Int) (conn : Connection) (s : HubState) :
    (handlePing config now conn s).2.broadcast = s.broadcast := by
  simp [handlePing, syncConn_broadcast]

theorem handleJoinGroup_broadcast (config : Config) (now : Int) (conn : Connection)
    (s : HubState) (msg : Message) :
    (handleJoinGroup config now conn s msg).2.broadcast = s.broadcast := by
  unfold handleJoinGroup
  split <;> simp [syncConn_broadcast]

theorem handleLeaveGroup_broadcast (config : Config) (now : Int) (conn : Connection)
    (s : HubState) (msg : Message) :
    (handleLeaveGroup config now conn s msg).2.broadcast = s.broadcast := by
  unfold handleLeaveGroup
  split <;> simp [syncConn_broadcast]

theorem handleStatus_broadcast (config : Config) (now : Int) (conn : Connection)
    (s : HubState) (msg : Message) :
    (handleStatus config now conn s msg).2.broadcast = s.broadcast := by
  simp [handleStatus, syncConn_broadcast]

theorem handleChat_broadcast_cases (conn : Connection) (s : HubState) (msg : Message) :
    (handleChat conn s msg).2.broadcast = s.broadcast ∨
    (handleChat conn s msg).2.broadcast = s.broadcast ++ [msg] := by
  unfold handleChat
  split_ifs <;> simp

theorem handleNotification_broadcast_cases (conn : Connection) (s : HubState) (msg : Message) :
    (handleNotification conn s msg).2.broadcast = s.broadcast ∨
    (handleNotification conn s msg).2.broadcast = s.broadcast ++ [msg] := by
  unfold handleNotification
  split_ifs <;> simp

/-! ## Claim theorems -/

/-- **C8**: serializing a `Message` to its JSON wire form and deserializing
the result yields the original message; in particular the omitted optional
fields (`from`/`to`/`group` carry `omitempty`) decode back to the empty
string, not to garbage. -/
theorem message_roundtrip (m : Message) :
    unmarshalMessage (marshalMessage m) = some m := by
  cases m with
  | mk t d ts f tto g =>
    by_cases hF : f = "" <;> by_cases hT : tto = "" <;> by_cases hG : g = "" <;>
      simp [marshalMessage, unmarshalMessage, mapGet, getStringField, getIntField, hF, hT, hG]

/-- **C3**: `trySend` with room in the outbound queue enqueues the payload
and does not invoke the drop callback; with a full queue it invokes the drop
callback and closes the transport exactly when `CloseOnBackpressure` is
enabled, leaving the queue unchanged.  This is the state outcome in both
drop-on-full and bounded-wait mode (with no concurrent consumer a full queue
stays full for the whole bounded wait); the wall-clock bound of the
non-blocking / bounded-wait attempt is a timing property outside the state
model. -/
theorem trySend_backpressure (config : Config) (conn : Connection) (data : Payload) :
    ((conn.Send.length : Int) < config.MessageBufferSize →
      trySend config conn data = ⟨{ conn with Send := conn.Send ++ [data] }, false⟩) ∧
    (config.MessageBufferSize ≤ (conn.Send.length : Int) →
      trySend config conn data =
        ⟨if config.CloseOnBackpressure then { conn with transportOpen := false } else conn,
          true⟩) := by
  constructor
  · intro h
    by_cases hd : config.DropOnFull <;> simp [trySend, hd, h]
  · intro h
    have hnl : ¬ ((conn.Send.length : Int) < config.MessageBufferSize) := not_lt.mpr h
    by_cases hd : config.DropOnFull <;> simp [trySend, hd, hnl]

/-- Witness for `trySend_backpressure`: a concrete full one-slot queue. -/
theorem trySend_backpressure_witness :
    wTinyConfig.MessageBufferSize ≤ (wFullConn.Send.length : Int) ∧
    trySend wTinyConfig wFullConn (.str "x") =
      ⟨if wTinyConfig.CloseOnBackpressure then { wFullConn with transportOpen := false }
        else wFullConn, true⟩ :=
  ⟨by decide, (trySend_backpressure wTinyConfig wFullConn (.str "x")).2 (by decide)⟩

/-- **C5**: a heartbeat scan marks not-alive and closes the transport of
exactly the registered connections whose last heartbeat is strictly older
than `ConnectionTimeout` measured from the scan time `now`; every other
registered connection is returned unchanged, and no index is touched. -/
theorem checkHeartbeats_exact (config : Config) (now : Int) (s : HubState) :
    (∀ cid c, mapGet s.connections cid = some c →
      mapGet (checkHeartbeats config now s).connections cid =
        some (if config.ConnectionTimeout < now - c.LastPing
              then { c with IsAlive := false, transportOpen := false } else c)) ∧
    (checkHeartbeats config now s).userConnections = s.userConnections ∧
    (checkHeartbeats config now s).groupConnections = s.groupConnections ∧
    (checkHeartbeats config now s).shardConns = s.shardConns ∧
    (checkHeartbeats config now s).connectionCount = s.connectionCount := by
  refine ⟨fun cid c h => ?_, rfl, rfl, rfl, rfl⟩
  have hmv := mapGet_mapValues
    (fun c => if config.ConnectionTimeout < now - c.LastPing
              then { c with IsAlive := false, transportOpen := false } else c)
    s.connections cid
  exact hmv.trans (by rw [h]; rfl)

/-- Witness for `checkHeartbeats_exact`: connection `"a"` (last ping 0) at
scan time 70s under the default 60s timeout. -/
theorem checkHeartbeats_exact_witness :
    mapGet wHub.connections "a" = some wConnA ∧
    mapGet (checkHeartbeats DefaultConfig (70 * second) wHub).connections "a" =
      some (if DefaultConfig.ConnectionTimeout < 70 * second - wConnA.LastPing
            then { wConnA with IsAlive := false, transportOpen := false } else wConnA) :=
  ⟨by rfl, (checkHeartbeats_exact DefaultConfig (70 * second) wHub).1 "a" wConnA (by rfl)⟩

/-- **C4 (counterexample)**: the configuration `c4bad` has heartbeat
interval 60s ≥ connection timeout 30s — a combination the claim says is
rejected before the hub starts — yet `NewHub` proceeds: it builds and starts
a hub whose running configuration is `c4bad` unchanged, while
`ValidateConfig` (which `NewHub` never calls) would reject it. -/
theorem newHub_runs_invalid_config :
    (NewHub (some c4bad)).1 = c4bad ∧
    (NewHub (some c4bad)).1.ConnectionTimeout ≤ (NewHub (some c4bad)).1.HeartbeatInterval ∧
    ValidateConfig c4bad = .error "heartbeat interval must be below connection timeout" :=
  ⟨rfl, by decide, by rfl⟩

/-- **C4 (amended)**: for every configuration with heartbeat interval ≥
connection timeout, or with close-on-backpressure enabled and a non-positive
send timeout, `ValidateConfig` returns an error — but `NewHub` performs no
validation: construction proceeds to a freshly started hub whose
configuration is the given one (normalised only in its worker/shard counts). -/
theorem validateConfig_rejects_newHub_ignores (config : Config)
    (h : config.ConnectionTimeout ≤ config.HeartbeatInterval ∨
         (config.CloseOnBackpressure ∧ config.SendTimeout ≤ 0)) :
    ValidateConfig config ≠ .ok () ∧
    (NewHub (some config)).1 = normalizeConfig config ∧
    (NewHub (some config)).2.connectionCount = 0 := by
  refine ⟨?_, rfl, rfl⟩
  intro hok
  unfold ValidateConfig at hok
  by_cases h1 : config.MaxConnections ≤ 0
  · rw [if_pos h1] at hok
    exact Except.noConfusion hok
  rw [if_neg h1] at hok
  by_cases h2 : config.HeartbeatInterval ≤ 0
  · rw [if_pos h2] at hok
    exact Except.noConfusion hok
  rw [if_neg h2] at hok
  by_cases h3 : config.ConnectionTimeout ≤ 0
  · rw [if_pos h3] at hok
    exact Except.noConfusion hok
  rw [if_neg h3] at hok
  by_cases h4 : config.MessageBufferSize ≤ 0
  · rw [if_pos h4] at hok
    exact Except.noConfusion hok
  rw [if_neg h4] at hok
  by_cases h5 : config.MessageQueueSize ≤ 0
  · rw [if_pos h5] at hok
    exact Except.noConfusion hok
  rw [if_neg h5] at hok
  by_cases h6 : config.ShardCount ≤ 0
  · rw [if_pos h6] at hok
    exact Except.noConfusion hok
  rw [if_neg h6] at hok
  by_cases h7 : config.BroadcastWorkerCount ≤ 0
  · rw [if_pos h7] at hok
    exact Except.noConfusion hok
  rw [if_neg h7] at hok
  by_cases h8 : config.CompressionLevel < -2 ∨ 9 < config.CompressionLevel
  · rw [if_pos h8] at hok
    exact Except.noConfusion hok
  rw [if_neg h8] at hok
  by_cases h9 : config.ReadBufferSize ≤ 0 ∨ config.WriteBufferSize ≤ 0
  · rw [if_pos h9] at hok
    exact Except.noConfusion hok
  rw [if_neg h9] at hok
  by_cases h10 : config.MaxMessageSize ≤ 0
  · rw [if_pos h10] at hok
    exact Except.noConfusion hok
  rw [if_neg h10] at hok
  by_cases h11 : config.ConnectionTimeout ≤ config.HeartbeatInterval
  · rw [if_pos h11] at hok
    exact Except.noConfusion hok
  rw [if_neg h11] at hok
  by_cases h12 : config.CloseOnBackpressure ∧ config.SendTimeout ≤ 0
  · rw [if_pos h12] at hok
    exact Except.noConfusion hok
  rcases h with h | h
  · exact h11 h
  · exact h12 h

/-- Witness for `validateConfig_rejects_newHub_ignores` at `c4bad`. -/
theorem validateConfig_rejects_newHub_ignores_witness :
    (c4bad.ConnectionTimeout ≤ c4bad.HeartbeatInterval ∨
      (c4bad.CloseOnBackpressure ∧ c4bad.SendTimeout ≤ 0)) ∧
    ValidateConfig c4bad ≠ .ok () :=
  ⟨Or.inl (by decide), (validateConfig_rejects_newHub_ignores c4bad (Or.inl (by decide))).1⟩

/-- **C9**: the inbound handler overwrites the frame's `from` field with the
connection's own user id before any handling, so two parsed frames that
differ only in `From` produce identical connection and hub results, and any
message the handler pushes onto the hub's dispatch queue carries
`From = conn.UserID` (a client cannot spoof another sender's identity). -/
theorem handleMessage_overwrites_from (config : Config) (now : Int) (conn : Connection)
    (s : HubState) (m : Message) (a b : String) :
    handleParsedMessage config now conn s { m with From := a } =
      handleParsedMessage config now conn s { m with From := b } ∧
    ((handleParsedMessage config now conn s m).2.broadcast = s.broadcast ∨
     (handleParsedMessage config now conn s m).2.broadcast =
       s.broadcast ++ [{ m with From := conn.UserID }]) := by
  constructor
  · rfl
  · simp only [handleParsedMessage]
    split
    · exact Or.inl (handlePing_broadcast config now conn s)
    · exact Or.inl (handleJoinGroup_broadcast config now conn s _)
    · exact Or.inl (handleLeaveGroup_broadcast config now conn s _)
    · exact handleChat_broadcast_cases conn s _
    · exact handleNotification_broadcast_cases conn s _
    · exact Or.inl (handleStatus_broadcast config now conn s _)
    · exact Or.inl rfl

/-- **C10**: an inbound `chat` frame whose `data` is not a JSON object, or
which has neither `to` nor `group` set, is discarded by the chat handler —
connection and hub state are both returned unchanged and nothing reaches the
dispatch queue; moreover every chat message that does reach the dispatch
queue has a target (`To` or `Group` non-empty), so an inbound chat frame can
never become an all-connections broadcast. -/
theorem handleChat_discards_untargeted (conn : Connection) (s : HubState) (msg : Message)
    (h : msg.data.isObj = false ∨ (msg.To = "" ∧ msg.Group = "")) :
    handleChat conn s msg = (conn, s) ∧
    ∀ m' : Message, (handleChat conn s m').2.broadcast = s.broadcast ∨
      ((handleChat conn s m').2.broadcast = s.broadcast ++ [m'] ∧
        (m'.To ≠ "" ∨ m'.Group ≠ "")) := by
  constructor
  · rcases h with h | h
    · unfold handleChat
      simp [h]
    · unfold handleChat
      by_cases ho : msg.data.isObj <;> simp [ho, h]
  · intro m'
    unfold handleChat
    by_cases ho : m'.data.isObj
    · by_cases ht : m'.To = "" ∧ m'.Group = ""
      · simp [ho, ht]
      · exact Or.inr ⟨by simp [ho, ht], not_and_or.mp ht⟩
    · simp [ho]

/-- Witness for `handleChat_discards_untargeted` at a frame with non-object
`data`. -/
theorem handleChat_discards_untargeted_witness :
    (wMsgBadData.data.isObj = false ∨ (wMsgBadData.To = "" ∧ wMsgBadData.Group = "")) ∧
    handleChat wConnA wHub wMsgBadData = (wConnA, wHub) :=
  ⟨Or.inl (by rfl),
   (handleChat_discards_untargeted wConnA wHub wMsgBadData (Or.inl (by rfl))).1⟩

/-- **C7**: joining group `g` puts the connection's id into the group index
under `g`; leaving `g` (later, from any hub state) removes the id from the
index under `g`, and when `g` thereby has no remaining members its entry is
removed from the index entirely, so a lookup of `g` afterwards finds no
group. -/
theorem group_join_then_leave (config : Config) (now now' : Int) (conn : Connection)
    (s s' : HubState) (g : String) (mjoin mleave : Message)
    (hj : mjoin.data = .str g) (hl : mleave.data = .str g) :
    conn.ID ∈ mapGetD (handleJoinGroup config now conn s mjoin).2.groupConnections g [] ∧
    conn.ID ∉ mapGetD (handleLeaveGroup config now' conn s' mleave).2.groupConnections g [] ∧
    (setDel conn.ID (mapGetD s'.groupConnections g []) = [] →
      mapGet (handleLeaveGroup config now' conn s' mleave).2.groupConnections g = none) := by
  refine ⟨?_, ?_, ?_⟩
  · simp only [handleJoinGroup, hj]
    rw [syncConn_groupConnections]
    simp [mapGetD, mapGet_insert_self, mem_setAdd_self]
  · simp only [handleLeaveGroup, hl]
    rw [syncConn_groupConnections]
    unfold removeFromGroupIndex
    cases hm : mapGet s'.groupConnections g with
    | none => simp [mapGetD, hm]
    | some ids =>
      by_cases he : (setDel conn.ID ids).isEmpty
      · simp [mapGetD, he, mapGet_erase_self]
      · simp [mapGetD, he, mapGet_insert_self, not_mem_setDel_self]
  · intro hempty
    simp only [handleLeaveGroup, hl]
    rw [syncConn_groupConnections]
    unfold removeFromGroupIndex
    cases hm : mapGet s'.groupConnections g with
    | none => simp [hm]
    | some ids =>
      have hids : setDel conn.ID ids = [] := by simpa [mapGetD, hm] using hempty
      simp [hids, mapGet_erase_self]

/-- Witness for `group_join_then_leave`: joining and leaving `"g2"` on the
concrete two-connection hub. -/
theorem group_join_then_leave_witness :
    wMsgJoin.data = .str "g2" ∧ wMsgLeave.data = .str "g2" ∧
    wConnA.ID ∈ mapGetD (handleJoinGroup DefaultConfig 1 wConnA wHub wMsgJoin).2.groupConnections "g2" [] ∧
    wConnA.ID ∉ mapGetD (handleLeaveGroup DefaultConfig 2 wConnA wHub wMsgLeave).2.groupConnections "g2" [] :=
  ⟨rfl, rfl,
   (group_join_then_leave DefaultConfig 1 2 wConnA wHub wHub "g2" wMsgJoin wMsgLeave rfl rfl).1,
   (group_join_then_leave DefaultConfig 1 2 wConnA wHub wHub "g2" wMsgJoin wMsgLeave rfl rfl).2.1⟩

/-! ## Fold lemmas for registration and unregistration -/

theorem foldRemove_eq (cid : String) (l : List String) (st : HubState) :
    l.foldl (fun st g => { st with groupConnections := removeFromGroupIndex cid st.groupConnections g }) st
      = { st with groupConnections :=
            l.foldl (fun mm g => removeFromGroupIndex cid mm g) st.groupConnections } := by
  induction l generalizing st with
  | nil => rfl
  | cons g rest ih =>
    rw [List.foldl_cons, List.foldl_cons, ih]

theorem foldAddGroup_eq (cid : String) (l : List String) (st : HubState) :
    l.foldl (fun st g => { st with groupConnections := mapInsert st.groupConnections g (setAdd cid (mapGetD st.groupConnections g [])) }) st
      = { st with groupConnections :=
            l.foldl (fun mm g => mapInsert mm g (setAdd cid (mapGetD mm g []))) st.groupConnections } := by
  induction l generalizing st with
  | nil => rfl
  | cons g rest ih =>
    rw [List.foldl_cons, List.foldl_cons, ih]

theorem remove_not_mem_self (cid : String) (m : List (String × List String)) (g : String) :
    cid ∉ mapGetD (removeFromGroupIndex cid m g) g [] := by
  unfold removeFromGroupIndex
  cases hm : mapGet m g with
  | none => simp [mapGetD, hm]
  | some ids =>
    by_cases he : (setDel cid ids).isEmpty
    · simp [mapGetD, he, mapGet_erase_self]
    · simp [mapGetD, he, mapGet_insert_self, not_mem_setDel_self]

theorem remove_preserves_ne (cid : String) (m : List (String × List String)) (g g' : String)
    (h : g' ≠ g) :
    mapGet (removeFromGroupIndex cid m g) g' = mapGet m g' := by
  unfold removeFromGroupIndex
  cases hm : mapGet m g with
  | none => rfl
  | some ids =>
    by_cases he : (setDel cid ids).isEmpty <;>
      simp [he, mapGet_erase_ne m g g' h, mapGet_insert_ne _ _ _ _ h]

theorem remove_never_adds (cid : String) (m : List (String × List String)) (g g' : String)
    (h : cid ∉ mapGetD m g' []) :
    cid ∉ mapGetD (removeFromGroupIndex cid m g) g' [] := by
  by_cases hg : g' = g
  · subst hg
    exact remove_not_mem_self cid m g'
  · simpa [mapGetD, remove_preserves_ne cid m g g' hg] using h

theorem foldRemove_never_adds (cid : String) (l : List String)
    (m : List (String × List String)) (g : String) (h : cid ∉ mapGetD m g []) :
    cid ∉ mapGetD (l.foldl (fun mm gg => removeFromGroupIndex cid mm gg) m) g [] := by
  induction l generalizing m with
  | nil => exact h
  | cons g0 rest ih =>
    rw [List.foldl_cons]
    exact ih _ (remove_never_adds cid m g0 g h)

theorem foldRemove_mem_removed (cid : String) (l : List String)
    (m : List (String × List String)) (g : String) (hg : g ∈ l) :
    cid ∉ mapGetD (l.foldl (fun mm gg => removeFromGroupIndex cid mm gg) m) g [] := by
  induction hg generalizing m with
  | head as =>
    rw [List.foldl_cons]
    exact foldRemove_never_adds cid as _ g (remove_not_mem_self cid m g)
  | tail b hmem ih =>
    rw [List.foldl_cons]
    exact ih _

theorem unregister_spec (s : HubState) (conn : Connection) (c0 : Connection)
    (h : mapGet s.connections conn.ID = some c0) :
    (unregisterConnection s conn).2 = true ∧
    mapGet (unregisterConnection s conn).1.connections conn.ID = none ∧
    conn.ID ∉ mapGetD (unregisterConnection s conn).1.shardConns (shardIndex s.shardCount conn.ID) [] ∧
    (conn.UserID ≠ "" → conn.ID ∉ mapGetD (unregisterConnection s conn).1.userConnections conn.UserID []) ∧
    (∀ g ∈ conn.Groups, conn.ID ∉ mapGetD (unregisterConnection s conn).1.groupConnections g []) ∧
    (unregisterConnection s conn).1.connectionCount = s.connectionCount - 1 := by
  by_cases hu : conn.UserID = ""
  · have hres : unregisterConnection s conn =
        ({ s with connections := mapErase s.connections conn.ID,
                  connectionCount := s.connectionCount - 1,
                  shardConns := mapInsert s.shardConns (shardIndex s.shardCount conn.ID) (setDel conn.ID (mapGetD s.shardConns (shardIndex s.shardCount conn.ID) [])),
                  groupConnections := conn.Groups.foldl (fun mm g => removeFromGroupIndex conn.ID mm g) s.groupConnections }, true) := by
      simp only [unregisterConnection, h, hu, if_pos]
      rw [foldRemove_eq]
    rw [hres]
    refine ⟨rfl, mapGet_erase_self _ _, ?_, fun hne => absurd hu hne,
      fun g hg => foldRemove_mem_removed conn.ID conn.Groups s.groupConnections g hg, rfl⟩
    simp [mapGetD, mapGet_insert_self, not_mem_setDel_self]
  · cases hm2 : mapGet s.userConnections conn.UserID with
    | none =>
      have hres : unregisterConnection s conn =
          ({ s with connections := mapErase s.connections conn.ID,
                    connectionCount := s.connectionCount - 1,
                    shardConns := mapInsert s.shardConns (shardIndex s.shardCount conn.ID) (setDel conn.ID (mapGetD s.shardConns (shardIndex s.shardCount conn.ID) [])),
                    groupConnections := conn.Groups.foldl (fun mm g => removeFromGroupIndex conn.ID mm g) s.groupConnections }, true) := by
        simp only [unregisterConnection, h, hu, if_neg, hm2]
        rw [foldRemove_eq]
        rfl
      rw [hres]
      refine ⟨rfl, mapGet_erase_self _ _, ?_, fun _ => ?_,
        fun g hg => foldRemove_mem_removed conn.ID conn.Groups s.groupConnections g hg, rfl⟩
      · simp [mapGetD, mapGet_insert_self, not_mem_setDel_self]
      · simp [mapGetD, hm2]
    | some ids =>
      by_cases hrest : (setDel conn.ID ids).isEmpty
      · have hres : unregisterConnection s conn =
            ({ s with connections := mapErase s.connections conn.ID,
                      connectionCount := s.connectionCount - 1,
                      shardConns := mapInsert s.shardConns (shardIndex s.shardCount conn.ID) (setDel conn.ID (mapGetD s.shardConns (shardIndex s.shardCount conn.ID) [])),
                      userConnections := mapErase s.userConnections conn.UserID,
                      groupConnections := conn.Groups.foldl (fun mm g => removeFromGroupIndex conn.ID mm g) s.groupConnections }, true) := by
          simp only [unregisterConnection, h, hu, if_neg, hm2, hrest, if_pos]
          rw [foldRemove_eq]
          rfl
        rw [hres]
        refine ⟨rfl, mapGet_erase_self _ _, ?_, fun _ => ?_,
          fun g hg => foldRemove_mem_removed conn.ID conn.Groups s.groupConnections g hg, rfl⟩
        · simp [mapGetD, mapGet_insert_self, not_mem_setDel_self]
        · simp [mapGetD, mapGet_erase_self]
      · have hres : unregisterConnection s conn =
            ({ s with connections := mapErase s.connections conn.ID,
                      connectionCount := s.connectionCount - 1,
                      shardConns := mapInsert s.shardConns (shardIndex s.shardCount conn.ID) (setDel conn.ID (mapGetD s.shardConns (shardIndex s.shardCount conn.ID) [])),
                      userConnections := mapInsert s.userConnections conn.UserID (setDel conn.ID ids),
                      groupConnections := conn.Groups.foldl (fun mm g => removeFromGroupIndex conn.ID mm g) s.groupConnections }, true) := by
          simp only [unregisterConnection, h, hu, if_neg, hm2, hrest]
          rw [foldRemove_eq]
          rfl
        rw [hres]
        refine ⟨rfl, mapGet_erase_self _ _, ?_, fun _ => ?_,
          fun g hg => foldRemove_mem_removed conn.ID conn.Groups s.groupConnections g hg, rfl⟩
        · simp [mapGetD, mapGet_insert_self, not_mem_setDel_self]
        · simp [mapGetD, mapGet_insert_self, not_mem_setDel_self]

/-- **C6**: unregistration is idempotent — a second unregistration of the
same connection returns the state unchanged and does not close the outbound
queue again — and the first unregistration of a registered connection
removes its id from the connection map, from its shard, from the user index
at its (non-empty) user id, and from the group index at every group in its
group set, closing the outbound queue exactly once. -/
theorem unregister_idempotent (s : HubState) (conn : Connection) :
    unregisterConnection (unregisterConnection s conn).1 conn =
      ((unregisterConnection s conn).1, false) ∧
    ∀ c0, mapGet s.connections conn.ID = some c0 →
      ((unregisterConnection s conn).2 = true ∧
       mapGet (unregisterConnection s conn).1.connections conn.ID = none ∧
       conn.ID ∉ mapGetD (unregisterConnection s conn).1.shardConns (shardIndex s.shardCount conn.ID) [] ∧
       (conn.UserID ≠ "" → conn.ID ∉ mapGetD (unregisterConnection s conn).1.userConnections conn.UserID []) ∧
       ∀ g ∈ conn.Groups, conn.ID ∉ mapGetD (unregisterConnection s conn).1.groupConnections g []) := by
  constructor
  · cases hm : mapGet s.connections conn.ID with
    | none =>
      have hid : unregisterConnection s conn = (s, false) := by
        simp [unregisterConnection, hm]
      rw [hid]
      exact hid
    | some c0 =>
      have hnone := (unregister_spec s conn c0 hm).2.1
      revert hnone
      generalize (unregisterConnection s conn).1 = t
      intro hnone
      simp [unregisterConnection, hnone]
  · intro c0 h
    exact ⟨(unregister_spec s conn c0 h).1, (unregister_spec s conn c0 h).2.1,
      (unregister_spec s conn c0 h).2.2.1, (unregister_spec s conn c0 h).2.2.2.1,
      (unregister_spec s conn c0 h).2.2.2.2.1⟩

/-- Witness for `unregister_idempotent`: unregistering connection `"a"` of
the concrete two-connection hub. -/
theorem unregister_idempotent_witness :
    mapGet wHub.connections wConnA.ID = some wConnA ∧
    mapGet (unregisterConnection wHub wConnA).1.connections wConnA.ID = none :=
  ⟨rfl, ((unregister_idempotent wHub wConnA).2 wConnA rfl).2.1⟩

/-! ## Connection-count preservation across non-registration steps -/

theorem handlePing_connectionCount (config : Config) (now : Int) (conn : Connection)
    (s : HubState) : (handlePing config now conn s).2.connectionCount = s.connectionCount := by
  simp [handlePing, syncConn_connectionCount]

theorem handleJoinGroup_connectionCount (config : Config) (now : Int) (conn : Connection)
    (s : HubState) (msg : Message) :
    (handleJoinGroup config now conn s msg).2.connectionCount = s.connectionCount := by
  unfold handleJoinGroup
  split <;> simp [syncConn_connectionCount]

theorem handleLeaveGroup_connectionCount (config : Config) (now : Int) (conn : Connection)
    (s : HubState) (msg : Message) :
    (handleLeaveGroup config now conn s msg).2.connectionCount = s.connectionCount := by
  unfold handleLeaveGroup
  split <;> simp [syncConn_connectionCount]

theorem handleChat_connectionCount (conn : Connection) (s : HubState) (msg : Message) :
    (handleChat conn s msg).2.connectionCount = s.connectionCount := by
  unfold handleChat
  split_ifs <;> rfl

theorem handleNotification_connectionCount (conn : Connection) (s : HubState) (msg : Message) :
    (handleNotification conn s msg).2.connectionCount = s.connectionCount := by
  unfold handleNotification
  split_ifs <;> rfl

theorem handleStatus_connectionCount (config : Config) (now : Int) (conn : Connection)
    (s : HubState) (msg : Message) :
    (handleStatus config now conn s msg).2.connectionCount = s.connectionCount := by
  simp [handleStatus, syncConn_connectionCount]

theorem handleParsedMessage_connectionCount (config : Config) (now : Int) (conn : Connection)
    (s : HubState) (m : Message) :
    (handleParsedMessage config now conn s m).2.connectionCount = s.connectionCount := by
  simp only [handleParsedMessage]
  split
  · exact handlePing_connectionCount config now conn s
  · exact handleJoinGroup_connectionCount config now conn s _
  · exact handleLeaveGroup_connectionCount config now conn s _
  · exact handleChat_connectionCount conn s _
  · exact handleNotification_connectionCount conn s _
  · exact handleStatus_connectionCount config now conn s _
  · rfl

theorem handleMessage_connectionCount (config : Config) (now : Int) (conn : Connection)
    (s : HubState) (frame : Payload) :
    (handleMessage config now conn s frame).2.connectionCount = s.connectionCount := by
  unfold handleMessage
  cases unmarshalMessage frame with
  | none => rfl
  | some m => exact handleParsedMessage_connectionCount config now conn s m

theorem deliverTo_connectionCount (config : Config) (s : HubState) (cid : String)
    (data : Payload) : (deliverTo config s cid data).connectionCount = s.connectionCount := by
  unfold deliverTo
  cases mapGet s.connections cid with
  | none => rfl
  | some c => by_cases h : c.IsAlive <;> simp [h]

theorem foldDeliver_connectionCount (config : Config) (data : Payload) (l : List String)
    (s : HubState) :
    (l.foldl (fun st cid => deliverTo config st cid data) s).connectionCount
      = s.connectionCount := by
  induction l generalizing s with
  | nil => rfl
  | cons cid rest ih =>
    rw [List.foldl_cons, ih]
    exact deliverTo_connectionCount config s cid data

theorem sendToUser_connectionCount (config : Config) (s : HubState) (userID : String)
    (data : Payload) : (sendToUser config s userID data).connectionCount = s.connectionCount := by
  unfold sendToUser
  cases mapGet s.userConnections userID with
  | none => rfl
  | some ids => exact foldDeliver_connectionCount config data ids s

theorem sendToGroup_connectionCount (config : Config) (s : HubState) (group : String)
    (data : Payload) : (sendToGroup config s group data).connectionCount = s.connectionCount := by
  unfold sendToGroup
  cases mapGet s.groupConnections group with
  | none => rfl
  | some ids => exact foldDeliver_connectionCount config data ids s

theorem dispatchMessage_connectionCount (config : Config) (now : Int) (s : HubState)
    (m : Message) : (dispatchMessage config now s m).connectionCount = s.connectionCount := by
  simp only [dispatchMessage]
  split_ifs
  · exact sendToUser_connectionCount config s _ _
  · exact sendToGroup_connectionCount config s _ _
  · rfl

theorem register_accepted_count (config : Config) (s : HubState) (conn : Connection)
    (h : ¬ config.MaxConnections ≤ s.connectionCount) :
    (registerConnection config s conn).1.connectionCount = s.connectionCount + 1 := by
  simp only [registerConnection, if_neg h]
  rw [foldAddGroup_eq]
  by_cases hu : conn.UserID = "" <;> simp [hu]

theorem step_preserves_count_le (config : Config) {s s' : HubState}
    (hstep : Step config s s') (ih : s.connectionCount ≤ config.MaxConnections) :
    s'.connectionCount ≤ config.MaxConnections := by
  cases hstep with
  | register conn =>
    by_cases h : config.MaxConnections ≤ s.connectionCount
    · simpa [registerConnection, h] using ih
    · rw [register_accepted_count config s conn h]
      omega
  | unregister conn =>
    cases hm : mapGet s.connections conn.ID with
    | none => simpa [unregisterConnection, hm] using ih
    | some c0 =>
      rw [(unregister_spec s conn c0 hm).2.2.2.2.2]
      omega
  | message conn now frame =>
    rw [handleMessage_connectionCount]
    exact ih
  | dispatch now m =>
    rw [dispatchMessage_connectionCount]
    exact ih
  | heartbeat now => exact ih

/-- **C1**: a registration attempt against a hub already at (or beyond) the
configured maximum closes the caller's transport and returns with the hub
state — connection map, user index, group index, shard table and connection
count — completely unchanged; consequently, starting from the freshly
constructed hub, every reachable state has at most `MaxConnections`
registered connections (for any configured maximum ≥ 0). -/
theorem register_capacity_invariant (config : Config) :
    (∀ s conn, config.MaxConnections ≤ s.connectionCount →
      registerConnection config s conn = (s, { conn with transportOpen := false })) ∧
    (∀ s, Reachable config s → 0 ≤ config.MaxConnections →
      s.connectionCount ≤ config.MaxConnections) := by
  constructor
  · intro s conn h
    simp [registerConnection, h]
  · intro s hr hmax
    induction hr with
    | init => exact hmax
    | step hr hstep ih => exact step_preserves_count_le config hstep ih

/-- Witness for `register_capacity_invariant`: the hub at the default
100000-connection limit rejects a further registration unchanged, and the
freshly constructed hub satisfies the bound. -/
theorem register_capacity_invariant_witness :
    DefaultConfig.MaxConnections ≤ wFullHub.connectionCount ∧
    registerConnection DefaultConfig wFullHub wConnA = (wFullHub, { wConnA with transportOpen := false }) ∧
    (0 : Int) ≤ DefaultConfig.MaxConnections ∧
    (NewHub (some DefaultConfig)).2.connectionCount ≤ DefaultConfig.MaxConnections :=
  ⟨by decide,
   (register_capacity_invariant DefaultConfig).1 wFullHub wConnA (by decide),
   by decide,
   (register_capacity_invariant DefaultConfig).2 _ Reachable.init (by decide)⟩

/-! ## Delivery lemmas for message dispatch -/

theorem stampTimestamp_To (now : Int) (m : Message) : (stampTimestamp now m).To = m.To := by
  unfold stampTimestamp
  split <;> rfl

theorem stampTimestamp_Group (now : Int) (m : Message) :
    (stampTimestamp now m).Group = m.Group := by
  unfold stampTimestamp
  split <;> rfl

theorem deliverTo_lookup_ne (config : Config) (s : HubState) (cid : String) (data : Payload)
    (cid' : String) (h : cid' ≠ cid) :
    mapGet (deliverTo config s cid data).connections cid' = mapGet s.connections cid' := by
  unfold deliverTo
  cases hm : mapGet s.connections cid with
  | none => rfl
  | some c =>
    by_cases ha : c.IsAlive
    · simp [ha, mapGet_insert_ne _ _ _ _ h]
    · simp [ha]

theorem deliverTo_lookup_self (config : Config) (s : HubState) (cid : String) (data : Payload)
    (c : Connection) (h : mapGet s.connections cid = some c) :
    mapGet (deliverTo config s cid data).connections cid =
      some (if c.IsAlive then (trySend config c data).conn else c) := by
  unfold deliverTo
  rw [h]
  by_cases ha : c.IsAlive <;> simp [ha, mapGet_insert_self, h]

theorem foldDeliver_lookup_not_mem (config : Config) (data : Payload) (l : List String)
    (s : HubState) (cid : String) (h : cid ∉ l) :
    mapGet ((l.foldl (fun st c => deliverTo config st c data) s)).connections cid
      = mapGet s.connections cid := by
  induction l generalizing s with
  | nil => rfl
  | cons x rest ih =>
    rw [List.foldl_cons]
    have hx : cid ≠ x := fun he => h (he ▸ List.mem_cons_self x rest)
    rw [ih _ (fun hm => h (List.mem_cons_of_mem _ hm))]
    exact deliverTo_lookup_ne config s x data cid hx

theorem foldDeliver_lookup (config : Config) (data : Payload) :
    ∀ (l : List String), l.Nodup →
    ∀ (s : HubState) (cid : String) (c : Connection), mapGet s.connections cid = some c →
    mapGet ((l.foldl (fun st c => deliverTo config st c data) s)).connections cid =
      some (if cid ∈ l ∧ c.IsAlive then (trySend config c data).conn else c) := by
  intro l
  induction l with
  | nil =>
    intro _ s cid c h
    simp [h]
  | cons x rest ih =>
    intro hnd s cid c h
    rcases List.nodup_cons.mp hnd with ⟨hx, hrest⟩
    rw [List.foldl_cons]
    by_cases hcx : cid = x
    · subst hcx
      rw [foldDeliver_lookup_not_mem config data rest _ cid hx,
          deliverTo_lookup_self config s cid data c h]
      simp
    · have hs1 : mapGet (deliverTo config s x data).connections cid = some c := by
        rw [deliverTo_lookup_ne config s x data cid hcx]
        exact h
      rw [ih hrest _ cid c hs1]
      simp [List.mem_cons, hcx]

theorem sendToUser_eq_fold (config : Config) (s : HubState) (u : String) (data : Payload) :
    sendToUser config s u data =
      (mapGetD s.userConnections u []).foldl (fun st cid => deliverTo config st cid data) s := by
  unfold sendToUser
  cases hm : mapGet s.userConnections u with
  | none => simp [mapGetD, hm]
  | some ids => simp [mapGetD, hm]

theorem sendToGroup_eq_fold (config : Config) (s : HubState) (g : String) (data : Payload) :
    sendToGroup config s g data =
      (mapGetD s.groupConnections g []).foldl (fun st cid => deliverTo config st cid data) s := by
  unfold sendToGroup
  cases hm : mapGet s.groupConnections g with
  | none => simp [mapGetD, hm]
  | some ids => simp [mapGetD, hm]

/-! ## Consequences of well-formedness -/

theorem WF_user_nodup (s : HubState) (hwf : WF s) (u : String) :
    (mapGetD s.userConnections u []).Nodup := by
  cases hm : mapGet s.userConnections u with
  | none => simp [mapGetD, hm]
  | some ids =>
    have hpe : (u, ids) ∈ s.userConnections := mapGet_some_mem _ _ _ hm
    have := (hwf.2.2.2.1 (u, ids) hpe).2.1
    simpa [mapGetD, hm] using this

theorem WF_group_nodup (s : HubState) (hwf : WF s) (g : String) :
    (mapGetD s.groupConnections g []).Nodup := by
  cases hm : mapGet s.groupConnections g with
  | none => simp [mapGetD, hm]
  | some ids =>
    have hpe : (g, ids) ∈ s.groupConnections := mapGet_some_mem _ _ _ hm
    have := (hwf.2.2.2.2.2.1 (g, ids) hpe).1
    simpa [mapGetD, hm] using this

theorem WF_user_mem (s : HubState) (hwf : WF s) (u cid : String) (c : Connection)
    (hu : u ≠ "") (h : mapGet s.connections cid = some c) :
    cid ∈ mapGetD s.userConnections u [] ↔ c.UserID = u := by
  constructor
  · intro hmem
    cases hm : mapGet s.userConnections u with
    | none => simp [mapGetD, hm] at hmem
    | some ids =>
      have hpe : (u, ids) ∈ s.userConnections := mapGet_some_mem _ _ _ hm
      have hval := (hwf.2.2.2.1 (u, ids) hpe).2.2 cid (by simpa [mapGetD, hm] using hmem)
      rw [h] at hval
      simpa using hval
  · intro hcu
    have hq := hwf.2.2.2.2.1 (cid, c) (mapGet_some_mem _ _ _ h) (by rw [hcu]; exact hu)
    rw [hcu] at hq
    exact hq

theorem WF_group_mem (s : HubState) (hwf : WF s) (g cid : String) (c : Connection)
    (h : mapGet s.connections cid = some c) :
    cid ∈ mapGetD s.groupConnections g [] ↔ g ∈ c.Groups := by
  constructor
  · intro hmem
    cases hm : mapGet s.groupConnections g with
    | none => simp [mapGetD, hm] at hmem
    | some ids =>
      have hpe : (g, ids) ∈ s.groupConnections := mapGet_some_mem _ _ _ hm
      have hval := (hwf.2.2.2.2.2.1 (g, ids) hpe).2 cid (by simpa [mapGetD, hm] using hmem)
      rw [h] at hval
      simpa using hval
  · intro hg
    exact hwf.2.2.2.2.2.2 (cid, c) (mapGet_some_mem _ _ _ h) g hg

theorem foldJobs_append (config : Config) (data : Payload) :
    ∀ (l : List Nat) (jobs : List (Nat × Payload)),
    (jobs.length : Int) + l.length ≤ config.MessageQueueSize →
    l.foldl (fun jobs i =>
        if (jobs.length : Int) < config.MessageQueueSize then jobs ++ [(i, data)] else jobs) jobs
      = jobs ++ l.map (fun i => (i, data)) := by
  intro l
  induction l with
  | nil =>
    intro jobs _
    simp
  | cons i rest ih =>
    intro jobs hle
    rw [List.foldl_cons]
    have hlt : (jobs.length : Int) < config.MessageQueueSize := by
      push_cast [List.length_cons] at hle
      omega
    rw [if_pos hlt, ih (jobs ++ [(i, data)])
      (by push_cast [List.length_cons, List.length_append, List.length_nil] at hle ⊢; omega)]
    simp

/-- **C2**: dispatching a message from the hub's `broadcast` queue routes on
the target fields.  With `to = u` non-empty, the serialized message is
enqueued onto the outbound queue of exactly the registered connections whose
user id is `u` and whose alive flag is true — every other registered
connection is untouched.  With `to` empty and `group` set, it is enqueued
onto exactly the alive members of that group.  With neither set, no
connection queue is touched and one broadcast job per shard is appended to
the fanout job queue.  (`WF` is the registry's data-model invariant; the
queue-room hypotheses rule out the backpressure drops of `trySend` and the
job-queue drops of `enqueueBroadcastAll`, which C3 covers.) -/
theorem dispatch_routes (config : Config) (now : Int) (s : HubState) (m : Message)
    (hwf : WF s)
    (hroom : ∀ q ∈ s.connections, (q.2.Send.length : Int) < config.MessageBufferSize)
    (hjobs : (s.broadcastJobs.length : Int) + s.shardCount ≤ config.MessageQueueSize) :
    (m.To ≠ "" → ∀ cid c, mapGet s.connections cid = some c →
      mapGet (dispatchMessage config now s m).connections cid =
        some (if c.UserID = m.To ∧ c.IsAlive
              then { c with Send := c.Send ++ [marshalMessage (stampTimestamp now m)] }
              else c)) ∧
    (m.To = "" → m.Group ≠ "" → ∀ cid c, mapGet s.connections cid = some c →
      mapGet (dispatchMessage config now s m).connections cid =
        some (if m.Group ∈ c.Groups ∧ c.IsAlive
              then { c with Send := c.Send ++ [marshalMessage (stampTimestamp now m)] }
              else c)) ∧
    (m.To = "" → m.Group = "" →
      (dispatchMessage config now s m).connections = s.connections ∧
      (dispatchMessage config now s m).broadcastJobs =
        s.broadcastJobs ++ (List.range s.shardCount).map
          (fun i => (i, marshalMessage (stampTimestamp now m)))) := by
  refine ⟨?_, ?_, ?_⟩
  · intro hTo cid c h
    simp only [dispatchMessage, stampTimestamp_To, stampTimestamp_Group]
    rw [if_pos hTo, sendToUser_eq_fold,
        foldDeliver_lookup config _ _ (WF_user_nodup s hwf m.To) s cid c h]
    have hiff := WF_user_mem s hwf m.To cid c hTo h
    have htr2 := (trySend_backpressure config c (marshalMessage (stampTimestamp now m))).1
      (hroom (cid, c) (mapGet_some_mem _ _ _ h))
    rw [htr2]
    simp [hiff]
  · intro hTo hG cid c h
    simp only [dispatchMessage, stampTimestamp_To, stampTimestamp_Group]
    rw [if_neg (by simpa using hTo), if_pos hG, sendToGroup_eq_fold,
        foldDeliver_lookup config _ _ (WF_group_nodup s hwf m.Group) s cid c h]
    have hiff := WF_group_mem s hwf m.Group cid c h
    have htr2 := (trySend_backpressure config c (marshalMessage (stampTimestamp now m))).1
      (hroom (cid, c) (mapGet_some_mem _ _ _ h))
    rw [htr2]
    simp [hiff]
  · intro hTo hG
    simp only [dispatchMessage, stampTimestamp_To, stampTimestamp_Group]
    rw [if_neg (by simpa using hTo), if_neg (by simpa using hG)]
    unfold enqueueBroadcastAll
    refine ⟨rfl, ?_⟩
    exact foldJobs_append config _ (List.range s.shardCount) s.broadcastJobs
      (by simpa [List.length_range] using hjobs)

/-- Witness for `dispatch_routes`: the concrete two-connection hub, a chat
message targeted at user `"u2"`, delivered into connection `"b"`. -/
theorem dispatch_routes_witness :
    WF wHub ∧
    (∀ q ∈ wHub.connections, (q.2.Send.length : Int) < DefaultConfig.MessageBufferSize) ∧
    ((wHub.broadcastJobs.length : Int) + wHub.shardCount ≤ DefaultConfig.MessageQueueSize) ∧
    wMsgFull.To ≠ "" ∧
    mapGet (dispatchMessage DefaultConfig 7 wHub wMsgFull).connections "b" =
      some (if wConnB.UserID = wMsgFull.To ∧ wConnB.IsAlive
            then { wConnB with Send := wConnB.Send ++ [marshalMessage (stampTimestamp 7 wMsgFull)] }
            else wConnB) :=
  ⟨by decide, by decide, by decide, by decide,
   (dispatch_routes DefaultConfig 7 wHub wMsgFull (by decide) (by decide) (by decide)).1
     (by decide) "b" wConnB rfl⟩

end HibiscusWS
